import Mathlib

set_option maxRecDepth 2000

/-!
Shallow embedding of the TradeGenie conversation core (src/main.py, src/config.py):
the per-user session store, the conversation state machine handlers, the
parameter-command parser, the image-intake handlers, the analysis orchestrator
and the reply chunker.  Network effects (Telegram replies, LLM calls) are made
explicit: replies are collected in the handler outcome, and the two LLM
providers are oracles supplied through an environment record.
-/

namespace TradeGenie

/-! ## Data model -/

/-- Raw image payloads (`bytes` in the source). -/
abbrev Bytes := List Nat

/-- One resolution variant of an inbound Telegram photo, together with the
byte size reported by `get_file` and the content that a full download yields. -/
structure Photo where
  file_size : Nat
  content : Bytes
deriving DecidableEq, Repr

/-- The part of a Telegram message the handlers inspect: `update.message.text`
and `update.message.photo` (a list of resolution variants; the source takes
`photo[-1]`, the highest resolution). -/
structure Msg where
  text : Option String
  photo : List Photo
deriving DecidableEq, Repr

/-- One per-user session record of `user_conversation_data`
(`timestamp` plus the fields filled in as the conversation advances). -/
structure Session where
  timestamp : Nat
  asset : Option String
  module : Option String
  capital : Option ℚ
  h4_image : Option Bytes
  h1_image : Option Bytes
  m15_image : Option Bytes
deriving DecidableEq, Repr

/-- The global `user_conversation_data` dict: user id to session record. -/
abbrev Store := List (Nat × Session)

/-- Dict lookup `user_conversation_data.get(user_id)`. -/
def storeFind : Store → Nat → Option Session
  | [], _ => none
  | (k, v) :: tl, u => if k = u then some v else storeFind tl u

/-- Dict deletion `del user_conversation_data[user_id]`. -/
def storeErase : Store → Nat → Store
  | [], _ => []
  | (k, v) :: tl, u => if k = u then storeErase tl u else (k, v) :: storeErase tl u

/-- In-place field mutation `user_conversation_data[user_id][...] = ...`.
The source indexes without a guard; through the conversation handler the key is
always present, so the absent-key case (a `KeyError` in Python) is a no-op here. -/
def storeSet : Store → Nat → (Session → Session) → Store
  | [], _, _ => []
  | (k, v) :: tl, u, f => if k = u then (k, f v) :: tl else (k, v) :: storeSet tl u f

/-- The body of the `clear_user_data_on_exit` decorator's `finally` block:
`if user_id in user_conversation_data: del user_conversation_data[user_id]`. -/
def clear_user_data_on_exit (store : Store) (user : Nat) : Store :=
  if (storeFind store user).isSome then storeErase store user else store

/-- Conversation states from `config.py` plus `ConversationHandler.END`. -/
inductive ConvState where
  | GET_TRADE_PARAMS
  | WAITING_H4_IMAGE
  | WAITING_H1_IMAGE
  | WAITING_M15_IMAGE
  | END
deriving DecidableEq, Repr

/-- Which image slot a reply refers to. -/
inductive Slot where
  | H4
  | H1
  | M15
deriving DecidableEq, Repr

/-- The user-visible replies the handlers can send, tagged by which
`reply_text` call in the source they stand for (text formatting is abstracted,
except for payloads a claim inspects). -/
inductive Reply where
  | invalidFormat
  | invalidCapital
  | assetUnsupported (asset : String)
  | moduleUnsupported (module : String)
  | capitalNotPositive
  | paramsSaved
  | notAPhoto (s : Slot)
  | sessionExpired
  | imageTooBig (s : Slot)
  | h4Received
  | h1ReceivedAskM15
  | analysisStarted
  | visionPromptMissing
  | imagesMissing
  | visionError (txt : String)
  | planPromptMissing
  | planError (txt : String)
  | finalPart (txt : String)
  | cancelConfirm
deriving DecidableEq, Repr

/-- Result of running one handler: the store afterwards, the replies sent, the
state returned to the conversation framework, whether `start_llm_analysis` was
invoked, the ordered image list submitted to the vision provider (`none` when
the vision provider was never called), and whether the planning provider
(DeepSeek) was called. -/
structure Outcome where
  store : Store
  replies : List Reply
  state : ConvState
  dispatched : Bool
  visionCalled : Option (List (Option Bytes))
  planCalled : Bool
deriving DecidableEq, Repr

/-! ## Configuration constants (src/config.py) -/

def SUPPORTED_ASSETS : List String := ["XAUUSD", "EURUSD"]

def SUPPORTED_MODULES : List String := ["SWING", "AMD"]

def MAX_IMAGE_SIZE_BYTES : Nat := 2 * 1024 * 1024

/-! ## The parameter-command parser (src/main.py lines 207-226)

`re.match(r'/trade\s+([A-Za-z0-9]+)\s+([A-Za-z]+)\s+([\d,\.]+)', text)` is a
prefix match.  All adjacent character classes in the pattern are disjoint, so
greedy maximal munch without backtracking is equivalent to the regex. -/

/-- Python regex `\s` on ASCII input: the whitespace set, which is also the
set stripped by Python s.strip(). -/
def isPySpace (c : Char) : Bool :=
  c = ' ' || c = '\t' || c = '\n' || c = '\r' || c = '\x0b' || c = '\x0c'

/-- Regex class `[A-Za-z0-9]`. -/
def isAlnumA (c : Char) : Bool := c.isAlpha || c.isDigit

/-- Regex class `[\d,\.]`, the capital-token characters. -/
def isCapChar (c : Char) : Bool := c.isDigit || c = ',' || c = '.'

/-- Match a literal at the front of the input; return the rest on success. -/
def dropLit : List Char → List Char → Option (List Char)
  | [], s => some s
  | _ :: _, [] => none
  | c :: cs, d :: ds => if c = d then dropLit cs ds else none

/-- Greedy `class+`: take a maximal nonempty run of characters satisfying `f`,
returning the run and the rest. -/
def munch1 (f : Char → Bool) (s : List Char) : Option (List Char × List Char) :=
  if (s.takeWhile f).isEmpty then none else some (s.takeWhile f, s.dropWhile f)

/-- The full regex match, also returning the unconsumed suffix of the input
(the regex itself is a prefix match and ignores that suffix). -/
def matchTradeAux (s : List Char) : Option ((List Char × List Char × List Char) × List Char) :=
  (dropLit "/trade".data s).bind fun s1 =>
  (munch1 isPySpace s1).bind fun p1 =>
  (munch1 isAlnumA p1.2).bind fun g1 =>
  (munch1 isPySpace g1.2).bind fun p2 =>
  (munch1 (fun c => c.isAlpha) p2.2).bind fun g2 =>
  (munch1 isPySpace g2.2).bind fun p3 =>
  (munch1 isCapChar p3.2).map fun g3 =>
  ((g1.1, g2.1, g3.1), g3.2)

/-- The three regex groups `(ASSET, MODULE, CAPITAL)` of the `/trade` command,
or `none` when the regex does not match. -/
def matchTrade (s : List Char) : Option (List Char × List Char × List Char) :=
  (matchTradeAux s).map Prod.fst

/-- `capital_str = match.group(3).replace(',', '.')`. -/
def mapCommaDot (l : List Char) : List Char :=
  l.map fun c => if c = ',' then '.' else c

/-- Digit run to a natural number. -/
def natOfDigits (l : List Char) : Nat :=
  l.foldl (fun acc c => acc * 10 + (c.toNat - 48)) 0

/-- Python `float(s)` restricted to the reachable domain (strings over digits
and `'.'`, which is all the regex group can produce after the comma
replacement): defined iff there is at most one dot and at least one digit. -/
def parsePyFloat (l : List Char) : Option ℚ :=
  if l.all (fun c => c.isDigit || c = '.') && l.count '.' ≤ 1 && l.any Char.isDigit then
    let ip := l.takeWhile (fun c => c ≠ '.')
    let fp := (l.dropWhile (fun c => c ≠ '.')).drop 1
    some ((natOfDigits ip : ℚ) + (natOfDigits fp : ℚ) / (10 ^ fp.length : ℚ))
  else none

/-- The capital value `get_trade_parameters` derives from the raw third regex
group: comma-to-dot replacement followed by `float`. -/
def capitalOfToken (t : List Char) : Option ℚ :=
  parsePyFloat (mapCommaDot t)

/-- Python `str.upper()` on ASCII input. -/
def upperStr (s : String) : String := String.mk (s.data.map Char.toUpper)

/-! ## Reply chunker (src/main.py lines 469-485) -/

/-- The semantic split boundary searched with `final_message.find(...)`. -/
def planMarker : List Char := "--- **Plan de Trading (par DeepSeek)** ---".data

/-- The continuation notice appended to the first semantic part. -/
def contMarker : List Char := "\n\n(Suite de l\x27analyse ci-dessous...)".data

/-- Does `pat` occur at the front of `s`? -/
def leadsWith : List Char → List Char → Bool
  | [], _ => true
  | _ :: _, [] => false
  | c :: cs, d :: ds => c = d && leadsWith cs ds

/-- Python `s.find(pat)`: index of the first occurrence, `none` for `-1`. -/
def idxOf (pat : List Char) : List Char → Option Nat
  | [] => if leadsWith pat [] then some 0 else none
  | c :: tl => if leadsWith pat (c :: tl) then some 0 else (idxOf pat tl).map Nat.succ

/-- Python `s.strip()`: drop whitespace from both ends. -/
def pyStrip (l : List Char) : List Char :=
  ((l.dropWhile isPySpace).reverse.dropWhile isPySpace).reverse

/-- The raw fallback split `final_message[i:i+4000]` for `i in range(0, len, 4000)`. -/
def rawChunks (t : List Char) : List (List Char) :=
  if h : t = [] then [] else t.take 4000 :: rawChunks (t.drop 4000)
termination_by t.length
decreasing_by
  simp only [List.length_drop]
  have : 0 < t.length := List.length_pos.mpr h
  omega

/-- The message-splitting logic of `start_llm_analysis`: a message over 4000
characters is split at the planning marker when that occurs before index 3500
(each half `strip`ped, a continuation notice appended to the first), otherwise
into raw 4000-character chunks; a message at or under 4000 is sent whole. -/
def chunkMessage (t : List Char) : List (List Char) :=
  if 4000 < t.length then
    match idxOf planMarker t with
    | some i =>
      if i < 3500 then [pyStrip (t.take i) ++ contMarker, pyStrip (t.drop i)]
      else rawChunks t
    | none => rawChunks t
  else [t]

/-! ## Analysis orchestrator (src/main.py lines 352-488) -/

/-- The provider oracles and prompt files `start_llm_analysis` consults: the
contents `_load_prompt_from_file` returns for each template path (empty string
when the file is missing), the text each provider returns for this invocation,
and the Python money formatting used in the final header. -/
structure LLMEnv where
  swingVisionPrompt : String
  amdVisionPrompt : String
  swingPlanPrompt : String
  amdPlanPrompt : String
  visionResult : String
  planResult : String
  fmtMoney : ℚ → String

/-- The reserved failure-marker prefix of a provider result. -/
def errMark : List Char := "❌".data

/-- Final message assembly: `"\n".join(final_message_parts)`. -/
def assembleFinal (module asset fmtCap vision plan : String) : String :=
  String.intercalate "\n" [
    "🎯 **ANALYSE COMPLÈTE & PLAN DE TRADING AI (" ++ module ++ ")**",
    "💰 **Capital Trading:** $" ++ fmtCap ++ " | Asset: **" ++ asset ++ "**",
    "\n--- **Analyse Technique (par ChatGPT)** ---\n",
    vision,
    "\n--- **Plan de Trading (par DeepSeek)** ---\n",
    plan,
    "\n⚠️ **AVERTISSEMENT:** Ceci est une analyse générée par une intelligence artificielle. "
      ++ "Elle ne constitue en aucun cas un conseil financier. Effectuez toujours vos propres recherches, "
      ++ "analyses et gestion des risques avant de prendre toute décision de trading. Le trading comporte des risques."]

/-- Python truthiness failure of an image payload: `None` or empty `bytes`. -/
def imgFalsy : Option Bytes → Bool
  | none => true
  | some b => b.isEmpty

/-- Body of `start_llm_analysis` before the `clear_user_data_on_exit`
decorator is applied. -/
def start_llm_inner (env : LLMEnv) (store : Store) (user : Nat) : Outcome :=
  match storeFind store user with
  | none => ⟨store, [.sessionExpired], .END, true, none, false⟩
  | some ud =>
    let capital := ud.capital.getD 0
    let asset := ud.asset.getD ""
    let module := ud.module.getD ""
    let chatgptPrompt :=
      if module = "SWING" then env.swingVisionPrompt
      else if module = "AMD" then env.amdVisionPrompt
      else ""
    let imgs : List (Option Bytes) :=
      if module = "SWING" then [ud.h4_image, ud.h1_image]
      else if module = "AMD" then [ud.h4_image, ud.m15_image]
      else []
    if chatgptPrompt = "" then
      ⟨store, [.analysisStarted, .visionPromptMissing], .END, true, none, false⟩
    else if imgs.any imgFalsy then
      ⟨store, [.analysisStarted, .imagesMissing], .END, true, none, false⟩
    else if leadsWith errMark env.visionResult.data then
      ⟨store, [.analysisStarted, .visionError env.visionResult], .END, true, some imgs, false⟩
    else
      let planTemplate :=
        if module = "SWING" then env.swingPlanPrompt
        else if module = "AMD" then env.amdPlanPrompt
        else ""
      if planTemplate = "" then
        ⟨store, [.analysisStarted, .planPromptMissing], .END, true, some imgs, false⟩
      else if leadsWith errMark env.planResult.data then
        ⟨store, [.analysisStarted, .planError env.planResult], .END, true, some imgs, true⟩
      else
        let finalMsg := assembleFinal module asset (env.fmtMoney capital) env.visionResult env.planResult
        ⟨store,
         [Reply.analysisStarted] ++ (chunkMessage finalMsg.data).map (fun part => Reply.finalPart (String.mk part)),
         .END, true, some imgs, true⟩

/-- `start_llm_analysis` with its `clear_user_data_on_exit` decorator. -/
def start_llm_analysis (env : LLMEnv) (store : Store) (user : Nat) : Outcome :=
  let o := start_llm_inner env store user
  ⟨clear_user_data_on_exit o.store user, o.replies, o.state, o.dispatched, o.visionCalled, o.planCalled⟩

/-! ## Conversation handlers (src/main.py lines 202-349, 171-180) -/

/-- `get_trade_parameters` (src/main.py lines 202-252): parse the `/trade`
command, validate asset, module and capital, store the three fields and
refresh the timestamp, and advance to `WAITING_H4_IMAGE`; on any validation
failure reply with the matching error and stay in `GET_TRADE_PARAMS`. -/
def get_trade_parameters (now : Nat) (store : Store) (user : Nat) (msg : Msg) : Outcome :=
  match matchTrade (msg.text.getD "").data with
  | none => ⟨store, [.invalidFormat], .GET_TRADE_PARAMS, false, none, false⟩
  | some (g1, g2, g3) =>
    let asset := upperStr (String.mk g1)
    let module := upperStr (String.mk g2)
    match capitalOfToken g3 with
    | none => ⟨store, [.invalidCapital], .GET_TRADE_PARAMS, false, none, false⟩
    | some capital =>
      if asset ∉ SUPPORTED_ASSETS then
        ⟨store, [.assetUnsupported asset], .GET_TRADE_PARAMS, false, none, false⟩
      else if module ∉ SUPPORTED_MODULES then
        ⟨store, [.moduleUnsupported module], .GET_TRADE_PARAMS, false, none, false⟩
      else if capital ≤ 0 then
        ⟨store, [.capitalNotPositive], .GET_TRADE_PARAMS, false, none, false⟩
      else
        ⟨storeSet store user (fun s =>
           { s with asset := some asset, module := some module,
                    capital := some capital, timestamp := now }),
         [.paramsSaved], .WAITING_H4_IMAGE, false, none, false⟩

/-- `receive_h4_image` (src/main.py lines 255-284): reject non-photos and
oversized photos with a re-prompt, otherwise store the highest-resolution
payload in the H4 slot, refresh the timestamp and advance to
`WAITING_H1_IMAGE`. -/
def receive_h4_image (now : Nat) (store : Store) (user : Nat) (msg : Msg) : Outcome :=
  match msg.photo.getLast? with
  | none => ⟨store, [.notAPhoto .H4], .WAITING_H4_IMAGE, false, none, false⟩
  | some ph =>
    match storeFind store user with
    | none => ⟨store, [.sessionExpired], .END, false, none, false⟩
    | some _ =>
      if MAX_IMAGE_SIZE_BYTES < ph.file_size then
        ⟨store, [.imageTooBig .H4], .WAITING_H4_IMAGE, false, none, false⟩
      else
        ⟨storeSet store user (fun s => { s with h4_image := some ph.content, timestamp := now }),
         [.h4Received], .WAITING_H1_IMAGE, false, none, false⟩

/-- `receive_h1_image` (src/main.py lines 287-320): like H4 intake, then
branch on the stored module: `AMD` asks for M15, anything else dispatches the
analysis immediately. -/
def receive_h1_image (env : LLMEnv) (now : Nat) (store : Store) (user : Nat) (msg : Msg) : Outcome :=
  match msg.photo.getLast? with
  | none => ⟨store, [.notAPhoto .H1], .WAITING_H1_IMAGE, false, none, false⟩
  | some ph =>
    match storeFind store user with
    | none => ⟨store, [.sessionExpired], .END, false, none, false⟩
    | some sess =>
      if MAX_IMAGE_SIZE_BYTES < ph.file_size then
        ⟨store, [.imageTooBig .H1], .WAITING_H1_IMAGE, false, none, false⟩
      else
        let store1 := storeSet store user (fun s => { s with h1_image := some ph.content, timestamp := now })
        if sess.module.getD "" = "AMD" then
          ⟨store1, [.h1ReceivedAskM15], .WAITING_M15_IMAGE, false, none, false⟩
        else
          start_llm_analysis env store1 user

/-- Body of `receive_m15_image` before its decorator. -/
def receive_m15_inner (env : LLMEnv) (now : Nat) (store : Store) (user : Nat) (msg : Msg) : Outcome :=
  match msg.photo.getLast? with
  | none => ⟨store, [.notAPhoto .M15], .WAITING_M15_IMAGE, false, none, false⟩
  | some ph =>
    match storeFind store user with
    | none => ⟨store, [.sessionExpired], .END, false, none, false⟩
    | some _ =>
      if MAX_IMAGE_SIZE_BYTES < ph.file_size then
        ⟨store, [.imageTooBig .M15], .WAITING_M15_IMAGE, false, none, false⟩
      else
        let store1 := storeSet store user (fun s => { s with m15_image := some ph.content, timestamp := now })
        start_llm_analysis env store1 user

/-- `receive_m15_image` (src/main.py lines 323-349), including its
`clear_user_data_on_exit` decorator, which deletes the user's session in a
`finally` block on every exit path of the handler. -/
def receive_m15_image (env : LLMEnv) (now : Nat) (store : Store) (user : Nat) (msg : Msg) : Outcome :=
  let o := receive_m15_inner env now store user msg
  ⟨clear_user_data_on_exit o.store user, o.replies, o.state, o.dispatched, o.visionCalled, o.planCalled⟩

/-- `cancel_command` (src/main.py lines 171-180): reply with a confirmation
and end the conversation; its `clear_user_data_on_exit` decorator deletes the
session when one exists. -/
def cancel_command (store : Store) (user : Nat) : Outcome :=
  ⟨clear_user_data_on_exit store user, [.cancelConfirm], .END, false, none, false⟩

/-! ## Store lemmas -/

theorem storeFind_erase_self (s : Store) (u : Nat) : storeFind (storeErase s u) u = none := by
  induction s with
  | nil => rfl
  | cons p tl ih =>
    obtain ⟨k, v⟩ := p
    by_cases hk : k = u
    · simpa [storeErase, hk] using ih
    · simpa [storeErase, storeFind, hk] using ih

theorem storeFind_erase_ne (s : Store) (u v : Nat) (h : v ≠ u) :
    storeFind (storeErase s u) v = storeFind s v := by
  induction s with
  | nil => rfl
  | cons p tl ih =>
    obtain ⟨k, w⟩ := p
    by_cases hk : k = u
    · subst hk
      simpa [storeErase, storeFind, Ne.symm h] using ih
    · simp only [storeErase, if_neg hk, storeFind]
      by_cases hv : k = v <;> simp [hv, ih]

theorem storeErase_absent (s : Store) (u : Nat) (h : storeFind s u = none) :
    storeErase s u = s := by
  induction s with
  | nil => rfl
  | cons p tl ih =>
    obtain ⟨k, v⟩ := p
    by_cases hk : k = u
    · simp [storeFind, hk] at h
    · simp only [storeFind, if_neg hk] at h
      simp [storeErase, hk, ih h]

theorem clear_find_self (s : Store) (u : Nat) :
    storeFind (clear_user_data_on_exit s u) u = none := by
  unfold clear_user_data_on_exit
  by_cases h : (storeFind s u).isSome
  · simp [h, storeFind_erase_self]
  · simp only [h, if_neg Bool.false_ne_true, if_false]
    exact Option.not_isSome_iff_eq_none.mp h

theorem clear_find_ne (s : Store) (u v : Nat) (h : v ≠ u) :
    storeFind (clear_user_data_on_exit s u) v = storeFind s v := by
  unfold clear_user_data_on_exit
  split
  · exact storeFind_erase_ne s u v h
  · rfl

theorem clear_absent (s : Store) (u : Nat) (h : storeFind s u = none) :
    clear_user_data_on_exit s u = s := by
  simp [clear_user_data_on_exit, h]

theorem storeFind_storeSet_self (s : Store) (u : Nat) (f : Session → Session) :
    storeFind (storeSet s u f) u = (storeFind s u).map f := by
  induction s with
  | nil => rfl
  | cons p tl ih =>
    obtain ⟨k, v⟩ := p
    by_cases hk : k = u <;> simp [storeSet, storeFind, hk, ih]

/-! ## Shared concrete fixtures -/

/-- A fresh session right after `/analyze`. -/
def sessFresh : Session := ⟨0, none, none, none, none, none, none⟩

/-- A SWING session with both required images collected. -/
def sessSwingFull : Session := ⟨10, some "XAUUSD", some "SWING", some 100000, some [7], some [8], none⟩

/-- An AMD session waiting for the M15 image (H4 and H1 collected). -/
def sessAmdH1 : Session := ⟨10, some "XAUUSD", some "AMD", some 100000, some [7], some [8], none⟩

/-- An AMD session with only H4 collected. -/
def sessAmdH4 : Session := ⟨10, some "XAUUSD", some "AMD", some 100000, some [7], none, none⟩

/-- An LLM environment where all prompt files load and both providers succeed. -/
def envOk : LLMEnv := ⟨"SV", "AV", "SP", "AP", "vision text", "plan text", fun _ => "100,000.00"⟩

/-- An LLM environment where the vision provider returns a failure-marked result. -/
def envVisionErr : LLMEnv := ⟨"SV", "AV", "SP", "AP", "❌ vision backend down", "plan text", fun _ => "100,000.00"⟩

/-- A photo under the size cap. -/
def msgPhotoOk : Msg := ⟨none, [⟨1024, [9]⟩]⟩

/-- A photo whose reported size (3 MiB) exceeds the 2 MiB cap. -/
def msgPhotoBig : Msg := ⟨none, [⟨3 * 1024 * 1024, [9]⟩]⟩

/-! ## Claims -/

/-- Claim C8: cancellation is idempotent on the session store.  Cancelling with
no session present replies a confirmation and leaves the store unchanged;
cancelling with a session present deletes exactly that user's session (other
users' sessions are untouched); hence cancelling twice has the same effect on
the store as cancelling once. -/
theorem cancel_command_idempotent (store : Store) (user : Nat) :
    (storeFind store user = none → (cancel_command store user).store = store) ∧
    Reply.cancelConfirm ∈ (cancel_command store user).replies ∧
    storeFind (cancel_command store user).store user = none ∧
    (∀ v, v ≠ user → storeFind (cancel_command store user).store v = storeFind store v) ∧
    (cancel_command (cancel_command store user).store user).store = (cancel_command store user).store := by
  refine ⟨fun h => clear_absent store user h, by simp [cancel_command], clear_find_self store user,
    fun v hv => clear_find_ne store user v hv, ?_⟩
  show clear_user_data_on_exit (clear_user_data_on_exit store user) user = _
  exact clear_absent _ user (clear_find_self store user)

/-- Witness for C8 at concrete inputs: an absent session (user 5 in a
one-entry store) is cancelled without touching the store, and cancelling the
present user 3 removes that session. -/
theorem cancel_command_idempotent_witness :
    storeFind [(3, sessFresh)] 5 = none ∧
    (cancel_command [(3, sessFresh)] 5).store = [(3, sessFresh)] ∧
    storeFind (cancel_command [(3, sessFresh)] 3).store 3 = none :=
  ⟨by decide, (cancel_command_idempotent [(3, sessFresh)] 5).1 (by decide),
    (cancel_command_idempotent [(3, sessFresh)] 3).2.2.1⟩

/-- The validity condition `get_trade_parameters` enforces before storing
anything: the regex matches, the capital parses, asset and module are in the
supported sets after upper-casing, and the capital is positive. -/
def validTradeCmd (text : List Char) : Bool :=
  match matchTrade text with
  | none => false
  | some (g1, g2, g3) =>
    match capitalOfToken g3 with
    | none => false
    | some c =>
      decide (upperStr (String.mk g1) ∈ SUPPORTED_ASSETS) &&
      decide (upperStr (String.mk g2) ∈ SUPPORTED_MODULES) &&
      decide (0 < c)

/-- Pointwise idempotence of the comma-to-dot map. -/
theorem mapCommaDot_idem (l : List Char) : mapCommaDot (mapCommaDot l) = mapCommaDot l := by
  simp only [mapCommaDot, List.map_map]
  refine congrFun (congrArg List.map (funext fun c => ?_)) l
  by_cases h : c = ','
  · simp [h]
  · simp [Function.comp, h]

/-- Claim C3: a `/trade` command whose upper-cased asset and module are
supported and whose capital token parses to a positive number stores exactly
those three values (asset and module upper-cased, capital as parsed) and
advances to `WAITING_H4_IMAGE`; every other `/trade` command leaves the store
untouched and stays in `GET_TRADE_PARAMS`. -/
theorem get_trade_parameters_spec
    (now : Nat) (store : Store) (user : Nat) (msg : Msg) (sess : Session)
    (hs : storeFind store user = some sess) :
    (∀ g1 g2 g3 c,
       matchTrade (msg.text.getD "").data = some (g1, g2, g3) →
       capitalOfToken g3 = some c →
       upperStr (String.mk g1) ∈ SUPPORTED_ASSETS →
       upperStr (String.mk g2) ∈ SUPPORTED_MODULES →
       0 < c →
       (get_trade_parameters now store user msg).state = ConvState.WAITING_H4_IMAGE ∧
       storeFind (get_trade_parameters now store user msg).store user =
         some { sess with asset := some (upperStr (String.mk g1)),
                          module := some (upperStr (String.mk g2)),
                          capital := some c, timestamp := now }) ∧
    (validTradeCmd (msg.text.getD "").data = false →
       (get_trade_parameters now store user msg).state = ConvState.GET_TRADE_PARAMS ∧
       (get_trade_parameters now store user msg).store = store) := by
  constructor
  · intro g1 g2 g3 c hmatch hcap ha hm hc
    unfold get_trade_parameters
    rw [hmatch]
    dsimp only
    rw [hcap]
    dsimp only
    rw [if_neg (not_not_intro ha), if_neg (not_not_intro hm), if_neg (not_le.mpr hc)]
    refine ⟨rfl, ?_⟩
    show storeFind (storeSet store user _) user = _
    rw [storeFind_storeSet_self, hs]
    rfl
  · intro hv
    unfold get_trade_parameters
    unfold validTradeCmd at hv
    cases hmatch : matchTrade (msg.text.getD "").data with
    | none => exact ⟨rfl, rfl⟩
    | some g =>
      obtain ⟨g1, g2, g3⟩ := g
      rw [hmatch] at hv
      dsimp only
      dsimp only at hv
      cases hcap : capitalOfToken g3 with
      | none => exact ⟨rfl, rfl⟩
      | some c =>
        rw [hcap] at hv
        dsimp only at hv ⊢
        by_cases ha : upperStr (String.mk g1) ∈ SUPPORTED_ASSETS
        · rw [if_neg (not_not_intro ha)]
          by_cases hm : upperStr (String.mk g2) ∈ SUPPORTED_MODULES
          · rw [if_neg (not_not_intro hm)]
            by_cases hle : c ≤ 0
            · rw [if_pos hle]
              exact ⟨rfl, rfl⟩
            · exfalso
              simp [ha, hm, not_le.mp hle] at hv
          · rw [if_pos hm]
            exact ⟨rfl, rfl⟩
        · rw [if_pos ha]
          exact ⟨rfl, rfl⟩

/-- Evaluation helper: the capital of the token `100000`. -/
theorem capitalOfToken_100000 : capitalOfToken "100000".data = some 100000 := by
  rw [show capitalOfToken "100000".data =
      some ((100000 : ℚ) + (0 : ℚ) / (10 : ℚ) ^ (0 : ℕ)) from rfl]
  norm_num

/-- Witness for C3: `/trade XAUUSD SWING 100000` in a fresh session stores
asset `XAUUSD`, module `SWING`, capital `100000` and advances to
`WAITING_H4_IMAGE`. -/
theorem get_trade_parameters_spec_witness :
    storeFind [(3, sessFresh)] 3 = some sessFresh ∧
    matchTrade ((Msg.mk (some "/trade XAUUSD SWING 100000") []).text.getD "").data =
      some ("XAUUSD".data, "SWING".data, "100000".data) ∧
    capitalOfToken "100000".data = some 100000 ∧
    (get_trade_parameters 99 [(3, sessFresh)] 3 (Msg.mk (some "/trade XAUUSD SWING 100000") [])).state =
      ConvState.WAITING_H4_IMAGE ∧
    storeFind (get_trade_parameters 99 [(3, sessFresh)] 3 (Msg.mk (some "/trade XAUUSD SWING 100000") [])).store 3 =
      some ⟨99, some (upperStr "XAUUSD"), some (upperStr "SWING"), some 100000, none, none, none⟩ := by
  refine ⟨by decide, by decide, capitalOfToken_100000, ?_⟩
  exact (get_trade_parameters_spec 99 [(3, sessFresh)] 3
      (Msg.mk (some "/trade XAUUSD SWING 100000") []) sessFresh (by decide)).1
      "XAUUSD".data "SWING".data "100000".data 100000
      (by decide) capitalOfToken_100000 (by decide) (by decide) (by norm_num)

/-- Claim C9: the capital parser first maps every comma to a dot, so a token
parses to the same capital as its comma-to-dot image; `100,000` stores 100
(as does `100.000`), and a token with two separators such as `1,2,3` is
rejected. -/
theorem capitalOfToken_comma_dot :
    (∀ t : List Char, capitalOfToken t = capitalOfToken (mapCommaDot t)) ∧
    capitalOfToken "100,000".data = some 100 ∧
    capitalOfToken "100.000".data = some 100 ∧
    capitalOfToken "1,2,3".data = none := by
  have h1 : capitalOfToken "100,000".data = some 100 := by
    rw [show capitalOfToken "100,000".data =
        some ((100 : ℚ) + (0 : ℚ) / (10 : ℚ) ^ (3 : ℕ)) from rfl]
    norm_num
  have h2 : capitalOfToken "100.000".data = some 100 := by
    rw [show capitalOfToken "100.000".data =
        some ((100 : ℚ) + (0 : ℚ) / (10 : ℚ) ^ (3 : ℕ)) from rfl]
    norm_num
  refine ⟨fun t => ?_, h1, h2, by decide⟩
  show parsePyFloat (mapCommaDot t) = parsePyFloat (mapCommaDot (mapCommaDot t))
  rw [mapCommaDot_idem]

/-! ## Chunker lemmas -/

theorem length_dropWhile_le (f : Char → Bool) (l : List Char) :
    (l.dropWhile f).length ≤ l.length := by
  induction l with
  | nil => exact le_rfl
  | cons c tl ih =>
    rw [List.dropWhile_cons]
    split
    · exact le_trans ih (Nat.le_succ _)
    · exact le_rfl

theorem pyStrip_length_le (l : List Char) : (pyStrip l).length ≤ l.length := by
  unfold pyStrip
  rw [List.length_reverse]
  calc ((l.dropWhile isPySpace).reverse.dropWhile isPySpace).length
      ≤ (l.dropWhile isPySpace).reverse.length := length_dropWhile_le _ _
    _ = (l.dropWhile isPySpace).length := List.length_reverse _
    _ ≤ l.length := length_dropWhile_le _ _

theorem rawChunks_bounded_join : ∀ (n : Nat) (t : List Char), t.length ≤ n →
    (∀ part ∈ rawChunks t, part.length ≤ 4000) ∧ (rawChunks t).flatten = t := by
  intro n
  induction n with
  | zero =>
    intro t ht
    have heq : t = [] := List.length_eq_zero.mp (Nat.le_zero.mp ht)
    subst heq
    rw [rawChunks]
    simp
  | succ n ih =>
    intro t ht
    rw [rawChunks]
    by_cases h : t = []
    · simp [h]
    · rw [dif_neg h]
      have hpos : 0 < t.length := List.length_pos.mpr h
      have hd : (t.drop 4000).length ≤ n := by
        rw [List.length_drop]
        omega
      obtain ⟨ih1, ih2⟩ := ih (t.drop 4000) hd
      constructor
      · intro part hp
        rcases List.mem_cons.mp hp with rfl | hp'
        · rw [List.length_take]
          exact min_le_left _ _
        · exact ih1 part hp'
      · rw [List.flatten_cons, ih2]
        exact List.take_append_drop 4000 t

/-- Removing the continuation marker the chunker appends, when present as a
suffix. -/
def stripCont (l : List Char) : List Char :=
  if leadsWith contMarker.reverse l.reverse then l.take (l.length - contMarker.length) else l

/-- A message of 4643 characters: 100 `A`s, a newline, the planning marker at
index 101, then 4500 `B`s.  The semantic split applies and emits a second part
of 4542 characters. -/
def chunkCounterexample : List Char :=
  List.replicate 100 'A' ++ '\n' :: planMarker ++ List.replicate 4500 'B'

/-! Evaluation lemmas for `idxOf`, `leadsWith` and `pyStrip` on the
counterexample shape, stated symbolically so that no deep list computations
are needed. -/

theorem leadsWith_self_append (pat x : List Char) : leadsWith pat (pat ++ x) = true := by
  induction pat with
  | nil => rfl
  | cons c cs ih => simp [leadsWith, ih]

theorem idxOf_of_leadsWith (pat s : List Char) (h : leadsWith pat s = true) :
    idxOf pat s = some 0 := by
  cases s with
  | nil => simp [idxOf, h]
  | cons c tl => simp [idxOf, h]

theorem idxOf_cons_of_not (pat : List Char) (c : Char) (tl : List Char)
    (h : leadsWith pat (c :: tl) = false) :
    idxOf pat (c :: tl) = (idxOf pat tl).map Nat.succ := by
  simp [idxOf, h]

theorem leadsWith_cons_ne (p0 : Char) (ptl : List Char) (a : Char) (x : List Char)
    (h : p0 ≠ a) : leadsWith (p0 :: ptl) (a :: x) = false := by
  simp [leadsWith, h]

theorem idxOf_replicate_append (p0 a : Char) (hne : p0 ≠ a) (ptl : List Char) :
    ∀ (n : Nat) (rest : List Char),
      idxOf (p0 :: ptl) (List.replicate n a ++ rest) =
        (idxOf (p0 :: ptl) rest).map (· + n) := by
  intro n
  induction n with
  | zero =>
    intro rest
    simp only [List.replicate_zero, List.nil_append]
    cases idxOf (p0 :: ptl) rest with
    | none => rfl
    | some v => simp
  | succ n ih =>
    intro rest
    rw [List.replicate_succ, List.cons_append,
      idxOf_cons_of_not _ _ _ (leadsWith_cons_ne p0 ptl a _ hne), ih rest]
    cases idxOf (p0 :: ptl) rest with
    | none => rfl
    | some v =>
      simp only [Option.map_some']
      exact congrArg some (by omega)

theorem idxOf_replicate_none (p0 a : Char) (hne : p0 ≠ a) (ptl : List Char) :
    ∀ n : Nat, idxOf (p0 :: ptl) (List.replicate n a) = none := by
  intro n
  induction n with
  | zero => simp [idxOf, leadsWith]
  | succ n ih =>
    rw [List.replicate_succ, idxOf_cons_of_not _ _ _ (leadsWith_cons_ne p0 ptl a _ hne), ih]
    rfl

theorem dropWhile_cons_neg (f : Char → Bool) (c : Char) (l : List Char) (h : f c = false) :
    (c :: l).dropWhile f = c :: l := by
  simp [List.dropWhile_cons, h]

/-- `strip()` is the identity on a string whose first and last characters are
not whitespace. -/
theorem pyStrip_eq_self (a : Char) (l : List Char)
    (hh : isPySpace a = false)
    (hl : ∀ c, (a :: l).getLast? = some c → isPySpace c = false) :
    pyStrip (a :: l) = a :: l := by
  unfold pyStrip
  rw [dropWhile_cons_neg _ _ _ hh]
  obtain ⟨b, rb, hrv⟩ := List.exists_cons_of_ne_nil (l := (a :: l).reverse) (by simp)
  have hb : isPySpace b = false := by
    apply hl
    rw [← List.head?_reverse, hrv]
    rfl
  rw [hrv, dropWhile_cons_neg _ _ _ hb, ← hrv, List.reverse_reverse]

theorem planMarker_cons :
    planMarker = '-' :: "-- **Plan de Trading (par DeepSeek)** ---".data := rfl

/-- The counterexample message in right-nested form. -/
theorem chunkCounterexample_eq :
    chunkCounterexample =
      List.replicate 100 'A' ++ ('\n' :: (planMarker ++ List.replicate 4500 'B')) := by
  unfold chunkCounterexample
  rw [List.append_assoc, List.cons_append]

theorem chunkCounterexample_len : chunkCounterexample.length = 4643 := by
  rw [chunkCounterexample_eq, List.length_append, List.length_cons, List.length_append,
    List.length_replicate, List.length_replicate, show planMarker.length = 42 from rfl]

theorem chunkCounterexample_idx : idxOf planMarker chunkCounterexample = some 101 := by
  rw [chunkCounterexample_eq, planMarker_cons]
  rw [idxOf_replicate_append '-' 'A' (by decide)]
  rw [idxOf_cons_of_not _ _ _ (leadsWith_cons_ne '-' _ '\n' _ (by decide))]
  rw [idxOf_of_leadsWith _ _ (leadsWith_self_append _ _)]
  rfl

theorem chunkCounterexample_take :
    chunkCounterexample.take 101 = List.replicate 100 'A' ++ ['\n'] := by
  rw [chunkCounterexample_eq, List.take_append_eq_append_take, List.length_replicate,
    List.take_of_length_le (by rw [List.length_replicate]; omega)]
  rfl

theorem chunkCounterexample_drop :
    chunkCounterexample.drop 101 = planMarker ++ List.replicate 4500 'B' := by
  rw [chunkCounterexample_eq, List.drop_append_eq_append_drop, List.length_replicate,
    List.drop_of_length_le (by rw [List.length_replicate]; omega)]
  rfl

theorem strip_first_part :
    pyStrip (List.replicate 100 'A' ++ ['\n']) = List.replicate 100 'A' := by
  unfold pyStrip
  have e1 : List.replicate 100 'A' ++ ['\n'] = 'A' :: (List.replicate 99 'A' ++ ['\n']) := by
    rw [show (100 : Nat) = 99 + 1 from rfl, List.replicate_succ, List.cons_append]
  rw [e1, dropWhile_cons_neg _ _ _ (by decide), ← e1]
  rw [List.reverse_append, List.reverse_replicate]
  rw [show (['\n'] : List Char).reverse ++ List.replicate 100 'A' =
      '\n' :: List.replicate 100 'A' from rfl]
  rw [List.dropWhile_cons, if_pos (by decide)]
  have e2 : List.replicate 100 'A' = 'A' :: List.replicate 99 'A' := by
    rw [show (100 : Nat) = 99 + 1 from rfl, List.replicate_succ]
  rw [e2, dropWhile_cons_neg _ _ _ (by decide), ← e2, List.reverse_replicate]

theorem strip_second_part :
    pyStrip (planMarker ++ List.replicate 4500 'B') = planMarker ++ List.replicate 4500 'B' := by
  rw [planMarker_cons, List.cons_append]
  refine pyStrip_eq_self '-' _ (by decide) ?_
  intro c hc
  rw [show List.replicate 4500 'B' = List.replicate 4499 'B' ++ ['B'] from by
        rw [show (4500 : Nat) = 4499 + 1 from rfl, List.replicate_succ']] at hc
  rw [← List.append_assoc, ← List.cons_append, List.getLast?_concat] at hc
  injection hc with hc
  subst hc
  decide

theorem stripCont_first_part :
    stripCont (List.replicate 100 'A' ++ contMarker) = List.replicate 100 'A' := by
  unfold stripCont
  rw [List.reverse_append, if_pos (leadsWith_self_append _ _)]
  rw [List.length_append, List.length_replicate,
    show contMarker.length = 36 from rfl]
  rw [show (100 + 36 - 36 : Nat) = 100 from rfl]
  rw [List.take_append_eq_append_take, List.length_replicate,
    List.take_of_length_le (by rw [List.length_replicate])]
  rw [show (100 - 100 : Nat) = 0 from rfl, List.take_zero, List.append_nil]

theorem stripCont_second_part :
    stripCont (planMarker ++ List.replicate 4500 'B') = planMarker ++ List.replicate 4500 'B' := by
  unfold stripCont
  rw [List.reverse_append, List.reverse_replicate]
  have hB : List.replicate 4500 'B' ++ planMarker.reverse =
      'B' :: (List.replicate 4499 'B' ++ planMarker.reverse) := by
    rw [show (4500 : Nat) = 4499 + 1 from rfl, List.replicate_succ, List.cons_append]
  rw [hB]
  cases hcm : contMarker.reverse with
  | nil =>
    exfalso
    rw [List.reverse_eq_nil_iff] at hcm
    exact absurd (congrArg List.length hcm) (by decide)
  | cons c0 ctl =>
    have hc0 : c0 = ')' := by
      have h1 : contMarker.reverse.head? = some ')' := by
        rw [List.head?_reverse]
        rfl
      rw [hcm] at h1
      exact Option.some.inj h1
    rw [leadsWith_cons_ne _ _ _ _ (show c0 ≠ 'B' from by rw [hc0]; decide)]
    rw [if_neg Bool.false_ne_true]

/-- Claim C2 (amended): a message of at most 4000 characters is sent whole.
An oversized message splits in two at the planning marker when that occurs
before index 3500 — the first part (stripped prefix plus continuation notice)
stays under 4000 characters, but the second part is the whole stripped suffix,
of unbounded length, and whitespace at the split boundary is dropped.  When no
such marker position exists the message is cut into raw 4000-character chunks,
each at most 4000 characters long, whose concatenation is exactly the
original. -/
theorem chunkMessage_spec (t : List Char) :
    (t.length ≤ 4000 → chunkMessage t = [t]) ∧
    (∀ i, 4000 < t.length → idxOf planMarker t = some i → i < 3500 →
       chunkMessage t = [pyStrip (t.take i) ++ contMarker, pyStrip (t.drop i)] ∧
       (pyStrip (t.take i) ++ contMarker).length < 4000) ∧
    (4000 < t.length → (∀ i, idxOf planMarker t = some i → 3500 ≤ i) →
       chunkMessage t = rawChunks t ∧
       (∀ part ∈ rawChunks t, part.length ≤ 4000) ∧ (rawChunks t).flatten = t) := by
  refine ⟨?_, ?_, ?_⟩
  · intro h
    unfold chunkMessage
    rw [if_neg (not_lt.mpr h)]
  · intro i hlen hidx hlt
    unfold chunkMessage
    rw [if_pos hlen, hidx]
    dsimp only
    rw [if_pos hlt]
    refine ⟨rfl, ?_⟩
    rw [List.length_append]
    have h1 : (pyStrip (t.take i)).length ≤ (t.take i).length := pyStrip_length_le _
    have h2 : (t.take i).length = min i t.length := List.length_take i t
    have h3 : contMarker.length = 36 := by decide
    omega
  · intro hlen hcase
    unfold chunkMessage
    rw [if_pos hlen]
    cases hidx : idxOf planMarker t with
    | none =>
      exact ⟨rfl, rawChunks_bounded_join t.length t le_rfl⟩
    | some i =>
      dsimp only
      rw [if_neg (not_lt.mpr (hcase i hidx))]
      exact ⟨rfl, rawChunks_bounded_join t.length t le_rfl⟩

/-- Claim C2 (counterexample): the chunker does not guarantee that every
emitted part is at most 4000 characters, nor that concatenation after
stripping the continuation marker reproduces the original.  On
`chunkCounterexample` the semantic split emits a 4542-character second part,
and the boundary newline eaten by `strip()` is lost. -/
theorem chunkMessage_counterexample :
    4000 < chunkCounterexample.length ∧
    (chunkMessage chunkCounterexample).map List.length = [136, 4542] ∧
    (∃ part ∈ chunkMessage chunkCounterexample, 4000 < part.length) ∧
    ((chunkMessage chunkCounterexample).map stripCont).flatten ≠ chunkCounterexample := by
  have hlen : chunkCounterexample.length = 4643 := chunkCounterexample_len
  have heq : chunkMessage chunkCounterexample =
      [List.replicate 100 'A' ++ contMarker, planMarker ++ List.replicate 4500 'B'] := by
    unfold chunkMessage
    rw [if_pos (by omega), chunkCounterexample_idx]
    dsimp only
    rw [if_pos (by omega : (101 : Nat) < 3500)]
    rw [chunkCounterexample_take, chunkCounterexample_drop,
      strip_first_part, strip_second_part]
  have hlen1 : (List.replicate 100 'A' ++ contMarker).length = 136 := by
    rw [List.length_append, List.length_replicate, show contMarker.length = 36 from rfl]
  have hlen2 : (planMarker ++ List.replicate 4500 'B').length = 4542 := by
    rw [List.length_append, List.length_replicate, show planMarker.length = 42 from rfl]
  refine ⟨by omega, ?_, ?_, ?_⟩
  · rw [heq, List.map_cons, List.map_cons, List.map_nil, hlen1, hlen2]
  · rw [heq]
    exact ⟨planMarker ++ List.replicate 4500 'B',
      List.mem_cons_of_mem _ (List.mem_cons_self _ _), by omega⟩
  · rw [heq, List.map_cons, List.map_cons, List.map_nil, stripCont_first_part,
      stripCont_second_part, List.flatten_cons, List.flatten_cons, List.flatten_nil,
      List.append_nil, chunkCounterexample_eq]
    intro heq2
    have hmid := List.append_cancel_left heq2
    have hhd := congrArg List.head? hmid
    rw [planMarker_cons, List.cons_append] at hhd
    simp only [List.head?] at hhd
    injection hhd with hhd
    exact absurd hhd (by decide)

/-- Witness for the amended C2: a one-character message is sent whole, and a
4001-character marker-free message falls back to raw chunks that concatenate
to the original. -/
theorem chunkMessage_spec_witness :
    (['h'].length ≤ 4000 ∧ chunkMessage ['h'] = [['h']]) ∧
    (4000 < (List.replicate 4001 'A').length ∧
     chunkMessage (List.replicate 4001 'A') = rawChunks (List.replicate 4001 'A') ∧
     (rawChunks (List.replicate 4001 'A')).flatten = List.replicate 4001 'A') := by
  constructor
  · exact ⟨by decide, (chunkMessage_spec ['h']).1 (by decide)⟩
  · have hlen : (List.replicate 4001 'A').length = 4001 := List.length_replicate _ _
    have hnone : idxOf planMarker (List.replicate 4001 'A') = none := by
      rw [planMarker_cons]
      exact idxOf_replicate_none '-' 'A' (by decide) _ 4001
    have h := (chunkMessage_spec (List.replicate 4001 'A')).2.2 (by omega)
      (fun i hi => by rw [hnone] at hi; cases hi)
    exact ⟨by omega, h.1, h.2.2⟩

/-- Every branch of the orchestrator marks the analysis as dispatched. -/
theorem start_llm_analysis_dispatched (env : LLMEnv) (store : Store) (user : Nat) :
    (start_llm_analysis env store user).dispatched = true := by
  show (start_llm_inner env store user).dispatched = true
  unfold start_llm_inner
  cases storeFind store user with
  | none => rfl
  | some ud =>
    dsimp only
    split_ifs <;> rfl

/-- Claim C5: once the H1 image is accepted, a session whose module is `AMD`
moves to `WAITING_M15_IMAGE` without dispatching the analysis, while a session
whose module is `SWING` dispatches the analysis orchestrator immediately. -/
theorem receive_h1_module_branches (env : LLMEnv) (now : Nat) (store : Store) (user : Nat)
    (msg : Msg) (sess : Session) (ph : Photo)
    (hs : storeFind store user = some sess)
    (hph : msg.photo.getLast? = some ph)
    (hsz : ph.file_size ≤ MAX_IMAGE_SIZE_BYTES) :
    (sess.module = some "AMD" →
       (receive_h1_image env now store user msg).state = ConvState.WAITING_M15_IMAGE ∧
       (receive_h1_image env now store user msg).dispatched = false) ∧
    (sess.module = some "SWING" →
       (receive_h1_image env now store user msg).dispatched = true) := by
  unfold receive_h1_image
  rw [hph, hs]
  dsimp only
  rw [if_neg (not_lt.mpr hsz)]
  constructor
  · intro hmod
    rw [hmod]
    simp only [Option.getD_some, if_true]
    exact ⟨by trivial, by trivial⟩
  · intro hmod
    rw [hmod]
    simp only [Option.getD_some, eq_false (by decide : ¬("SWING" = "AMD")), if_false]
    exact start_llm_analysis_dispatched env _ user

/-- Witness for C5: an AMD session receiving an acceptable H1 photo moves to
`WAITING_M15_IMAGE` without dispatching the analysis. -/
theorem receive_h1_module_branches_witness :
    storeFind [(3, sessAmdH4)] 3 = some sessAmdH4 ∧
    msgPhotoOk.photo.getLast? = some ⟨1024, [9]⟩ ∧
    (1024 ≤ MAX_IMAGE_SIZE_BYTES) ∧
    sessAmdH4.module = some "AMD" ∧
    (receive_h1_image envOk 21 [(3, sessAmdH4)] 3 msgPhotoOk).state = ConvState.WAITING_M15_IMAGE ∧
    (receive_h1_image envOk 21 [(3, sessAmdH4)] 3 msgPhotoOk).dispatched = false := by
  refine ⟨by decide, by decide, by decide, by decide, ?_⟩
  exact (receive_h1_module_branches envOk 21 [(3, sessAmdH4)] 3 msgPhotoOk sessAmdH4
      ⟨1024, [9]⟩ (by decide) (by decide) (by decide)).1 (by decide)

/-- Claim C6: whenever the vision provider is actually called, the ordered
image list it receives is `[H4, H1]` for a `SWING` session and `[H4, M15]`
for an `AMD` session. -/
theorem vision_images_by_module (env : LLMEnv) (store : Store) (user : Nat)
    (sess : Session) (imgs : List (Option Bytes))
    (hs : storeFind store user = some sess)
    (hv : (start_llm_analysis env store user).visionCalled = some imgs) :
    (sess.module = some "SWING" → imgs = [sess.h4_image, sess.h1_image]) ∧
    (sess.module = some "AMD" → imgs = [sess.h4_image, sess.m15_image]) := by
  have hv' : (start_llm_inner env store user).visionCalled = some imgs := hv
  unfold start_llm_inner at hv'
  rw [hs] at hv'
  dsimp only at hv'
  constructor
  · intro hmod
    rw [hmod] at hv'
    simp only [Option.getD_some, if_true,
      eq_false (by decide : ¬("SWING" = "AMD")), if_false] at hv'
    split_ifs at hv' with h1 h2 h3 h4 h5
    all_goals (cases hv' <;> rfl)
  · intro hmod
    rw [hmod] at hv'
    simp only [Option.getD_some, if_true,
      eq_false (by decide : ¬("AMD" = "SWING")), if_false] at hv'
    split_ifs at hv' with h1 h2 h3 h4 h5
    all_goals (cases hv' <;> rfl)

/-- Witness for C6: a complete SWING session submits exactly its H4 and H1
payloads, in that order, to the vision provider. -/
theorem vision_images_by_module_witness :
    storeFind [(3, sessSwingFull)] 3 = some sessSwingFull ∧
    (start_llm_analysis envOk [(3, sessSwingFull)] 3).visionCalled = some [some [7], some [8]] ∧
    sessSwingFull.module = some "SWING" ∧
    [some [7], some [8]] = [sessSwingFull.h4_image, sessSwingFull.h1_image] := by
  refine ⟨by decide, by decide, by decide, ?_⟩
  exact (vision_images_by_module envOk [(3, sessSwingFull)] 3 sessSwingFull
      [some [7], some [8]] (by decide) (by decide)).1 (by decide)

/-- Claim C4: when the vision provider is called and its result carries the
reserved failure marker, the planning provider is never called, the vision
error text is reported to the user, the session is deleted from the store and
the conversation ends. -/
theorem vision_error_terminal (env : LLMEnv) (store : Store) (user : Nat)
    (herr : leadsWith errMark env.visionResult.data = true)
    (hvis : (start_llm_analysis env store user).visionCalled.isSome = true) :
    (start_llm_analysis env store user).planCalled = false ∧
    Reply.visionError env.visionResult ∈ (start_llm_analysis env store user).replies ∧
    storeFind (start_llm_analysis env store user).store user = none ∧
    (start_llm_analysis env store user).state = ConvState.END := by
  have hvis' : (start_llm_inner env store user).visionCalled.isSome = true := hvis
  have hmain : (start_llm_inner env store user).planCalled = false ∧
      Reply.visionError env.visionResult ∈ (start_llm_inner env store user).replies ∧
      (start_llm_inner env store user).state = ConvState.END := by
    unfold start_llm_inner at hvis' ⊢
    cases hfind : storeFind store user with
    | none =>
      rw [hfind] at hvis'
      simp at hvis'
    | some ud =>
      rw [hfind] at hvis'
      dsimp only at hvis' ⊢
      split_ifs at hvis' ⊢ <;>
        first
          | (refine ⟨rfl, ?_, rfl⟩; simp; done)
          | exact absurd herr (by assumption)
          | exact absurd hvis' Bool.false_ne_true
  exact ⟨hmain.1, hmain.2.1, clear_find_self _ user, hmain.2.2⟩

/-- Witness for C4: with a failure-marked vision result on a complete SWING
session, the plan step never runs, the error is surfaced and the session is
deleted. -/
theorem vision_error_terminal_witness :
    leadsWith errMark envVisionErr.visionResult.data = true ∧
    (start_llm_analysis envVisionErr [(3, sessSwingFull)] 3).visionCalled.isSome = true ∧
    (start_llm_analysis envVisionErr [(3, sessSwingFull)] 3).planCalled = false ∧
    Reply.visionError envVisionErr.visionResult ∈
      (start_llm_analysis envVisionErr [(3, sessSwingFull)] 3).replies ∧
    storeFind (start_llm_analysis envVisionErr [(3, sessSwingFull)] 3).store 3 = none ∧
    (start_llm_analysis envVisionErr [(3, sessSwingFull)] 3).state = ConvState.END := by
  refine ⟨by decide, by decide, ?_⟩
  have h := vision_error_terminal envVisionErr [(3, sessSwingFull)] 3 (by decide) (by decide)
  exact ⟨h.1, h.2.1, h.2.2.1, h.2.2.2⟩

/-- Claim C7: an image whose reported size exceeds the cap is rejected in each
of the three waiting states: the handler replies and returns the same waiting
state, and no image slot is written (for H4 and H1 the store is untouched; for
M15 any session still present for the user has its M15 slot unchanged). -/
theorem oversized_image_rejected (env : LLMEnv) (now : Nat) (store : Store) (user : Nat)
    (msg : Msg) (sess : Session) (ph : Photo)
    (hs : storeFind store user = some sess)
    (hph : msg.photo.getLast? = some ph)
    (hsz : MAX_IMAGE_SIZE_BYTES < ph.file_size) :
    ((receive_h4_image now store user msg).state = ConvState.WAITING_H4_IMAGE ∧
     (receive_h4_image now store user msg).store = store) ∧
    ((receive_h1_image env now store user msg).state = ConvState.WAITING_H1_IMAGE ∧
     (receive_h1_image env now store user msg).store = store) ∧
    ((receive_m15_image env now store user msg).state = ConvState.WAITING_M15_IMAGE ∧
     ∀ sess2, storeFind (receive_m15_image env now store user msg).store user = some sess2 →
       sess2.m15_image = sess.m15_image) := by
  refine ⟨?_, ?_, ?_, ?_⟩
  · unfold receive_h4_image
    rw [hph, hs]
    dsimp only
    rw [if_pos hsz]
    exact ⟨rfl, rfl⟩
  · unfold receive_h1_image
    rw [hph, hs]
    dsimp only
    rw [if_pos hsz]
    exact ⟨rfl, rfl⟩
  · show (receive_m15_inner env now store user msg).state = ConvState.WAITING_M15_IMAGE
    unfold receive_m15_inner
    rw [hph, hs]
    dsimp only
    rw [if_pos hsz]
  · intro sess2 h
    have hnone : storeFind (receive_m15_image env now store user msg).store user = none :=
      clear_find_self _ user
    rw [hnone] at h
    cases h

/-- Witness for C7: a 3 MiB photo is rejected in all three waiting states of
an AMD session that has H4 and H1 collected. -/
theorem oversized_image_rejected_witness :
    storeFind [(3, sessAmdH1)] 3 = some sessAmdH1 ∧
    msgPhotoBig.photo.getLast? = some ⟨3 * 1024 * 1024, [9]⟩ ∧
    MAX_IMAGE_SIZE_BYTES < 3 * 1024 * 1024 ∧
    (receive_h4_image 22 [(3, sessAmdH1)] 3 msgPhotoBig).state = ConvState.WAITING_H4_IMAGE ∧
    (receive_h4_image 22 [(3, sessAmdH1)] 3 msgPhotoBig).store = [(3, sessAmdH1)] ∧
    (receive_m15_image envOk 22 [(3, sessAmdH1)] 3 msgPhotoBig).state = ConvState.WAITING_M15_IMAGE := by
  refine ⟨by decide, by decide, by decide, ?_⟩
  have h := oversized_image_rejected envOk 22 [(3, sessAmdH1)] 3 msgPhotoBig sessAmdH1
      ⟨3 * 1024 * 1024, [9]⟩ (by decide) (by decide) (by decide)
  exact ⟨h.1.1, h.1.2, h.2.2.1⟩

/-- Claim C1 (divergence witness): in the `WAITING_M15_IMAGE` state, a
rejected oversized-image submission destroys the session.  The handler
re-prompts and returns `WAITING_M15_IMAGE`, as if the user could resubmit, but
the `clear_user_data_on_exit` decorator's `finally` block has deleted the
user's session from the store, so the promised resubmission can only hit the
session-expired path.  The session-store entry with all previously collected
fields is gone. -/
theorem m15_oversized_image_destroys_session :
    (receive_m15_image envOk 20 [(7, sessAmdH1)] 7 msgPhotoBig).state = ConvState.WAITING_M15_IMAGE ∧
    Reply.imageTooBig Slot.M15 ∈ (receive_m15_image envOk 20 [(7, sessAmdH1)] 7 msgPhotoBig).replies ∧
    storeFind (receive_m15_image envOk 20 [(7, sessAmdH1)] 7 msgPhotoBig).store 7 = none := by
  refine ⟨rfl, by decide, ?_⟩
  decide

/-! ## Parser append lemmas (for C10) -/

theorem dropLit_append (lit s r s' : List Char) (h : dropLit lit s = some s') :
    dropLit lit (s ++ r) = some (s' ++ r) := by
  induction lit generalizing s with
  | nil =>
    cases s <;> injection h with h <;> subst h <;> rfl
  | cons c cs ih =>
    cases s with
    | nil => cases h
    | cons d ds =>
      simp only [dropLit] at h ⊢
      by_cases hcd : c = d
      · rw [if_pos hcd] at h ⊢
        exact ih ds h
      · rw [if_neg hcd] at h
        cases h

theorem takeWhile_append_stop (f : Char → Bool) (s r : List Char) (h : s.dropWhile f ≠ []) :
    (s ++ r).takeWhile f = s.takeWhile f ∧ (s ++ r).dropWhile f = s.dropWhile f ++ r := by
  induction s with
  | nil => simp at h
  | cons c tl ih =>
    by_cases hc : f c
    · have h' : tl.dropWhile f ≠ [] := by simpa [List.dropWhile_cons, hc] using h
      obtain ⟨h1, h2⟩ := ih h'
      simp [List.takeWhile_cons, List.dropWhile_cons, hc, h1, h2]
    · simp [List.takeWhile_cons, List.dropWhile_cons, hc]

theorem takeWhile_append_all (f : Char → Bool) (s r : List Char) (h : s.dropWhile f = []) :
    (s ++ r).takeWhile f = s ++ r.takeWhile f ∧ (s ++ r).dropWhile f = r.dropWhile f := by
  induction s with
  | nil => simp
  | cons c tl ih =>
    by_cases hc : f c
    · have h' : tl.dropWhile f = [] := by simpa [List.dropWhile_cons, hc] using h
      obtain ⟨h1, h2⟩ := ih h'
      simp [List.takeWhile_cons, List.dropWhile_cons, hc, h1, h2]
    · simp [List.dropWhile_cons, hc] at h

theorem takeWhile_eq_self_of_dropWhile_nil (f : Char → Bool) (s : List Char)
    (h : s.dropWhile f = []) : s.takeWhile f = s := by
  induction s with
  | nil => rfl
  | cons c tl ih =>
    by_cases hc : f c
    · have h' : tl.dropWhile f = [] := by simpa [List.dropWhile_cons, hc] using h
      simp [List.takeWhile_cons, hc, ih h']
    · simp [List.dropWhile_cons, hc] at h

theorem munch1_ne_nil {f : Char → Bool} {s : List Char} {x : List Char × List Char}
    (h : munch1 f s = some x) : s ≠ [] := by
  intro hs
  subst hs
  simp [munch1] at h

theorem munch1_append_stop {f : Char → Bool} {s : List Char} {t u : List Char} (r : List Char)
    (h : munch1 f s = some (t, u)) (hu : u ≠ []) :
    munch1 f (s ++ r) = some (t, u ++ r) := by
  unfold munch1 at h ⊢
  split_ifs at h with he
  cases h
  have hne : s.dropWhile f ≠ [] := hu
  obtain ⟨h1, h2⟩ := takeWhile_append_stop f s r hne
  rw [h1, h2, if_neg he]

theorem munch1_append_all {f : Char → Bool} {s : List Char} {t : List Char} (r : List Char)
    (h : munch1 f s = some (t, [])) :
    munch1 f (s ++ r) = some (t ++ r.takeWhile f, r.dropWhile f) := by
  unfold munch1 at h ⊢
  split_ifs at h with he
  injection h with h
  injection h with ht hd
  subst ht
  obtain ⟨h1, h2⟩ := takeWhile_append_all f s r hd
  have hself : s.takeWhile f = s := takeWhile_eq_self_of_dropWhile_nil f s hd
  have hs : s ≠ [] := by
    intro hnil
    subst hnil
    simp at he
  rw [h1, h2, hself]
  obtain ⟨c, s2, rfl⟩ := List.exists_cons_of_ne_nil hs
  simp [List.cons_append]

/-- Claim C10 (amended): trailing characters after a complete
`/trade ASSET MODULE CAPITAL` command are ignored — the command parses exactly
as if they were absent — provided the first trailing character is not a digit,
comma or dot; a trailing capital-class character is absorbed into the greedy
capital group and can change or invalidate the parse. -/
theorem matchTrade_trailing (p r : List Char) (g : List Char × List Char × List Char)
    (hp : matchTradeAux p = some (g, []))
    (hr : ∀ c, r.head? = some c → isCapChar c = false) :
    matchTrade (p ++ r) = matchTrade p := by
  have hp0 := hp
  simp only [matchTradeAux, Option.bind_eq_some, Option.map_eq_some'] at hp
  obtain ⟨s1, h1, p1, h2, g1, h3, p2, h4, g2, h5, p3, h6, g3, h7, hfin⟩ := hp
  have hg3 : g3.2 = [] := congrArg Prod.snd hfin
  have hg : (g1.1, g2.1, g3.1) = g := congrArg Prod.fst hfin
  have hs2 : p1.2 ≠ [] := munch1_ne_nil h3
  have hs3 : g1.2 ≠ [] := munch1_ne_nil h4
  have hs4 : p2.2 ≠ [] := munch1_ne_nil h5
  have hs5 : g2.2 ≠ [] := munch1_ne_nil h6
  have hs6 : p3.2 ≠ [] := munch1_ne_nil h7
  have h7' : munch1 isCapChar p3.2 = some (g3.1, []) := by
    rw [h7]
    exact congrArg some (Prod.ext rfl hg3)
  have htw : r.takeWhile isCapChar = [] := by
    cases r with
    | nil => rfl
    | cons c cs => simp [List.takeWhile_cons, hr c rfl]
  show (matchTradeAux (p ++ r)).map Prod.fst = (matchTradeAux p).map Prod.fst
  unfold matchTradeAux
  rw [dropLit_append _ _ _ _ h1]
  dsimp only [Option.bind]
  rw [munch1_append_stop r h2 hs2]
  dsimp only [Option.bind]
  rw [munch1_append_stop r h3 hs3]
  dsimp only [Option.bind]
  rw [munch1_append_stop r h4 hs4]
  dsimp only [Option.bind]
  rw [munch1_append_stop r h5 hs5]
  dsimp only [Option.bind]
  rw [munch1_append_stop r h6 hs6]
  dsimp only [Option.bind]
  rw [munch1_append_all r h7']
  rw [h1]
  dsimp only [Option.bind]
  rw [h2]
  dsimp only [Option.bind]
  rw [h3]
  dsimp only [Option.bind]
  rw [h4]
  dsimp only [Option.bind]
  rw [h5]
  dsimp only [Option.bind]
  rw [h6]
  dsimp only [Option.bind]
  rw [h7']
  rw [htw]
  simp

/-- Claim C10 (counterexample): `/trade XAUUSD SWING 100` is a complete
well-formed command, yet appending the trailing character `0` does not leave
the parse unchanged — the greedy capital group absorbs it and the capital
token becomes `1000`. -/
theorem matchTrade_trailing_counterexample :
    matchTradeAux "/trade XAUUSD SWING 100".data =
      some (("XAUUSD".data, "SWING".data, "100".data), []) ∧
    matchTrade ("/trade XAUUSD SWING 100".data ++ ['0']) =
      some ("XAUUSD".data, "SWING".data, "1000".data) ∧
    matchTrade "/trade XAUUSD SWING 100".data =
      some ("XAUUSD".data, "SWING".data, "100".data) ∧
    matchTrade ("/trade XAUUSD SWING 100".data ++ ['0']) ≠
      matchTrade "/trade XAUUSD SWING 100".data := by
  exact ⟨by decide, by decide, by decide, by decide⟩

/-- Witness for the amended C10: appending the non-capital-class tail
`" now please"` to a complete command leaves the parse unchanged. -/
theorem matchTrade_trailing_witness :
    matchTradeAux "/trade XAUUSD SWING 100".data =
      some (("XAUUSD".data, "SWING".data, "100".data), []) ∧
    (" now please".data.head? = some ' ' ∧ isCapChar ' ' = false) ∧
    matchTrade ("/trade XAUUSD SWING 100".data ++ " now please".data) =
      matchTrade "/trade XAUUSD SWING 100".data := by
  refine ⟨by decide, ⟨by decide, by decide⟩, ?_⟩
  refine matchTrade_trailing "/trade XAUUSD SWING 100".data " now please".data
      ("XAUUSD".data, "SWING".data, "100".data) (by decide) ?_
  intro c hc
  have hh : (" now please".data).head? = some ' ' := rfl
  rw [hh] at hc
  injection hc with hc
  subst hc
  decide

end TradeGenie
